import Mathlib

/-
  Verification of the gcp-vm-manager repository.

  The program under study is a single-threaded interactive CLI
  (src/gcp_vm_manager.py) that shells out to the `gcloud` tool.  The
  embedding below models:
    * Python `json.loads` on the subset of JSON the program consumes
      (values: object, array, string, number, true/false/null, plus the
      CPython extensions NaN / Infinity / -Infinity); objects are built
      with dict semantics (insertion order, last duplicate key wins);
    * Python `int(str)` as used by the input-validation loops;
    * the subprocess boundary: a spawn either completes with an exit
      code / stdout / stderr, raises an `Exception` at startup, or is hit
      by a `KeyboardInterrupt`; exception propagation is made explicit
      with `Except`;
    * the functions `run_command`, `get_vm_status`,
      `get_all_vm_statuses`, `ssh_to_vm`, the top-level handler of
      `main`, the menu prompt loops, the one-shot connection-method
      selection of `ssh_to_cloud_run`, the proxy call of
      `use_exec_method`, the configuration operations of
      `manage_projects`, and the reconciliation step of `display_vms`.
-/

/-- JSON values as produced by Python `json.loads`.  Numbers are kept as
their lexeme: the program never computes with a JSON number, so no
floating-point semantics are needed, only validity of the lexeme.
Object fields are in insertion order with unique keys (dict semantics). -/
inductive JValue where
  | null
  | bool (b : Bool)
  | num (lexeme : String)
  | str (s : String)
  | arr (elems : List JValue)
  | obj (fields : List (String × JValue))

/-- Replace the value at a key, keeping its position, or append the pair:
the update semantics of a Python dict. -/
def assocSet {α β : Type} [DecidableEq α] : List (α × β) → α → β → List (α × β)
  | [], k, v => [(k, v)]
  | (k', v') :: rest, k, v =>
      if k' = k then (k, v) :: rest else (k', v') :: assocSet rest k v

/-- Python dict lookup on an association list with unique keys. -/
def assocGet {α β : Type} [DecidableEq α] (l : List (α × β)) (k : α) : Option β :=
  (l.find? (fun p => decide (p.1 = k))).map Prod.snd

/-- JSON whitespace (RFC 8259, as accepted by Python `json.loads`). -/
def jWs (c : Char) : Bool :=
  c = ' ' || c = '\t' || c = '\n' || c = '\r'

def skipWs : List Char → List Char
  | [] => []
  | c :: rest => if jWs c then skipWs rest else c :: rest

def hexVal (c : Char) : Option Nat :=
  if '0' ≤ c ∧ c ≤ '9' then some (c.toNat - 48)
  else if 'a' ≤ c ∧ c ≤ 'f' then some (c.toNat - 87)
  else if 'A' ≤ c ∧ c ≤ 'F' then some (c.toNat - 55)
  else none

/-- Body of a JSON string literal, after the opening quote: strict mode of
Python `json.loads` (raw control characters rejected, the usual escapes,
`\uXXXX` decoded numerically). -/
def parseStringBody : List Char → Option (String × List Char)
  | [] => none
  | '"' :: rest => some ("", rest)
  | '\\' :: 'u' :: h1 :: h2 :: h3 :: h4 :: rest => do
      let a ← hexVal h1
      let b ← hexVal h2
      let c ← hexVal h3
      let d ← hexVal h4
      let (s, r) ← parseStringBody rest
      pure (String.mk (Char.ofNat (((a * 16 + b) * 16 + c) * 16 + d) :: s.data), r)
  | '\\' :: e :: rest => do
      let ch ← match e with
        | '"' => some '"'
        | '\\' => some '\\'
        | '/' => some '/'
        | 'b' => some '\x08'
        | 'f' => some '\x0c'
        | 'n' => some '\n'
        | 'r' => some '\r'
        | 't' => some '\t'
        | _ => none
      let (s, r) ← parseStringBody rest
      pure (String.mk (ch :: s.data), r)
  | c :: rest =>
      if c.toNat < 32 then none
      else do
        let (s, r) ← parseStringBody rest
        pure (String.mk (c :: s.data), r)

def spanDigits : List Char → List Char × List Char
  | [] => ([], [])
  | c :: rest =>
      if c.isDigit then
        let (ds, r) := spanDigits rest
        (c :: ds, r)
      else ([], c :: rest)

/-- The integer part of a JSON number: `0`, or a nonzero digit followed by
digits (a leading zero may not be followed by further digits). -/
def parseIntPart : List Char → Option (List Char × List Char)
  | [] => none
  | c :: rest =>
      if c = '0' then some ([c], rest)
      else if c.isDigit then
        let (ds, r) := spanDigits rest
        some (c :: ds, r)
      else none

def parseFracPart : List Char → Option (List Char × List Char)
  | '.' :: rest =>
      match spanDigits rest with
      | ([], _) => none
      | (ds, r) => some ('.' :: ds, r)
  | cs => some ([], cs)

def parseExpPart : List Char → Option (List Char × List Char)
  | 'e' :: '+' :: rest =>
      match spanDigits rest with
      | ([], _) => none
      | (ds, r) => some ('e' :: '+' :: ds, r)
  | 'e' :: '-' :: rest =>
      match spanDigits rest with
      | ([], _) => none
      | (ds, r) => some ('e' :: '-' :: ds, r)
  | 'e' :: rest =>
      match spanDigits rest with
      | ([], _) => none
      | (ds, r) => some ('e' :: ds, r)
  | 'E' :: '+' :: rest =>
      match spanDigits rest with
      | ([], _) => none
      | (ds, r) => some ('E' :: '+' :: ds, r)
  | 'E' :: '-' :: rest =>
      match spanDigits rest with
      | ([], _) => none
      | (ds, r) => some ('E' :: '-' :: ds, r)
  | 'E' :: rest =>
      match spanDigits rest with
      | ([], _) => none
      | (ds, r) => some ('E' :: ds, r)
  | cs => some ([], cs)

/-- A JSON number lexeme, with optional leading minus sign. -/
def parseNumber (cs : List Char) : Option (String × List Char) :=
  let core : List Char → Option (String × List Char) := fun cs0 => do
    let (ip, r1) ← parseIntPart cs0
    let (fp, r2) ← parseFracPart r1
    let (ep, r3) ← parseExpPart r2
    pure (String.mk (ip ++ fp ++ ep), r3)
  match cs with
  | '-' :: rest => (core rest).map (fun p => ("-" ++ p.1, p.2))
  | _ => core cs

/-- Match a fixed literal. -/
def parseLit : List Char → List Char → Option (List Char)
  | [], cs => some cs
  | l :: ls, c :: cs => if c = l then parseLit ls cs else none
  | _ :: _, [] => none

mutual

/-- One JSON value (fueled; fuel bounds nesting plus element count). -/
def parseVal : Nat → List Char → Option (JValue × List Char)
  | 0, _ => none
  | fuel + 1, cs =>
      match skipWs cs with
      | [] => none
      | c :: rest =>
          if c = '"' then
            (parseStringBody rest).map (fun p => (JValue.str p.1, p.2))
          else if c = '\x7b' then
            parseObjFields fuel (skipWs rest) []
          else if c = '[' then
            parseArrElems fuel (skipWs rest)
          else if c = 't' then
            (parseLit ['r', 'u', 'e'] rest).map (fun r => (JValue.bool true, r))
          else if c = 'f' then
            (parseLit ['a', 'l', 's', 'e'] rest).map (fun r => (JValue.bool false, r))
          else if c = 'n' then
            (parseLit ['u', 'l', 'l'] rest).map (fun r => (JValue.null, r))
          else if c = 'N' then
            (parseLit ['a', 'N'] rest).map (fun r => (JValue.num "NaN", r))
          else if c = 'I' then
            (parseLit ['n', 'f', 'i', 'n', 'i', 't', 'y'] rest).map
              (fun r => (JValue.num "Infinity", r))
          else if c = '-' then
            match rest with
            | 'I' :: rest2 =>
                (parseLit ['n', 'f', 'i', 'n', 'i', 't', 'y'] rest2).map
                  (fun r => (JValue.num "-Infinity", r))
            | _ => (parseNumber (c :: rest)).map (fun p => (JValue.num p.1, p.2))
          else
            (parseNumber (c :: rest)).map (fun p => (JValue.num p.1, p.2))

/-- Elements of an array, the opening bracket already consumed and
whitespace skipped. -/
def parseArrElems : Nat → List Char → Option (JValue × List Char)
  | 0, _ => none
  | fuel + 1, cs =>
      match cs with
      | ']' :: rest => some (JValue.arr [], rest)
      | _ => do
          let (v, r) ← parseVal fuel cs
          parseArrRest fuel r [v]

/-- After one array element: either a comma and a further element, or the
closing bracket. -/
def parseArrRest : Nat → List Char → List JValue → Option (JValue × List Char)
  | 0, _, _ => none
  | fuel + 1, cs, acc =>
      match skipWs cs with
      | ']' :: rest => some (JValue.arr acc.reverse, rest)
      | ',' :: rest => do
          let (v, r) ← parseVal fuel rest
          parseArrRest fuel r (v :: acc)
      | _ => none

/-- Fields of an object, the opening brace already consumed and whitespace
skipped.  Duplicate keys collapse, last value winning, as in the dict
returned by `json.loads`. -/
def parseObjFields : Nat → List Char → List (String × JValue) →
    Option (JValue × List Char)
  | 0, _, _ => none
  | fuel + 1, cs, acc =>
      match cs with
      | '\x7d' :: rest => some (JValue.obj acc, rest)
      | '"' :: rest => do
          let (k, r1) ← parseStringBody rest
          match skipWs r1 with
          | ':' :: r2 => do
              let (v, r3) ← parseVal fuel r2
              parseObjRest fuel r3 (assocSet acc k v)
          | _ => none
      | _ => none

/-- After one object field: either a comma and a further field, or the
closing brace. -/
def parseObjRest : Nat → List Char → List (String × JValue) →
    Option (JValue × List Char)
  | 0, _, _ => none
  | fuel + 1, cs, acc =>
      match skipWs cs with
      | '\x7d' :: rest => some (JValue.obj acc, rest)
      | ',' :: rest =>
          (match skipWs rest with
          | '"' :: r0 => do
              let (k, r1) ← parseStringBody r0
              match skipWs r1 with
              | ':' :: r2 => do
                  let (v, r3) ← parseVal fuel r2
                  parseObjRest fuel r3 (assocSet acc k v)
              | _ => none
          | _ => none)
      | _ => none

end

/-- Model of Python `json.loads`: `some` the parsed value, `none` when the
call raises `JSONDecodeError`. -/
def jsonParse (s : String) : Option JValue :=
  match parseVal (s.length * 2 + 2) s.data with
  | some (v, rest) => if (skipWs rest).isEmpty then some v else none
  | none => none

/-- Model of Python `int(str)`: surrounding whitespace stripped, one
optional sign, then decimal digits with single underscores allowed
between digits.  `none` when the call raises `ValueError`. -/
def digitsVal : List Char → Nat → Option Nat
  | [], acc => some acc
  | '_' :: c :: rest, acc =>
      if c.isDigit then digitsVal rest (acc * 10 + (c.toNat - 48)) else none
  | ['_'], _ => none
  | c :: rest, acc =>
      if c.isDigit then digitsVal rest (acc * 10 + (c.toNat - 48)) else none

def pyNatVal : List Char → Option Nat
  | [] => none
  | c :: rest => if c.isDigit then digitsVal rest (c.toNat - 48) else none

def pyStrip (s : String) : List Char :=
  ((s.data.dropWhile Char.isWhitespace).reverse.dropWhile Char.isWhitespace).reverse

def pyInt? (s : String) : Option Int :=
  match pyStrip s with
  | '+' :: rest => (pyNatVal rest).map Int.ofNat
  | '-' :: rest => (pyNatVal rest).map (fun n => -(Int.ofNat n))
  | cs => (pyNatVal cs).map Int.ofNat

/-- Outcome of one attempt to spawn a child process: the child ran to
completion, the spawn raised a Python `Exception` (tool missing,
permission denied), or a `KeyboardInterrupt` arrived during the blocking
call. -/
inductive SpawnResult where
  | completed (code : Int) (out err : String)
  | startupError (msg : String)
  | interrupted
deriving DecidableEq

/-- A Python exception escaping a function: an `Exception` with its
message, or a `KeyboardInterrupt` (which is a `BaseException`, not an
`Exception`). -/
inductive PyExn where
  | exception (msg : String)
  | keyboardInterrupt
deriving DecidableEq

/-- The environment: what spawning a given argument vector does. -/
abbrev Executor := List String → SpawnResult

/-- `run_command`, gcp_vm_manager.py lines 116-127.  The body is
`try: subprocess.run(...) except Exception as e: return 1, "", str(e)`;
`except Exception` does not catch `KeyboardInterrupt`, so an interrupt
during the blocking call propagates to the caller. -/
def run_command (ex : Executor) (command : List String) :
    Except PyExn (Int × String × String) :=
  match ex command with
  | .completed c o e => .ok (c, o, e)
  | .startupError m => .ok (1, "", m)
  | .interrupted => .error .keyboardInterrupt

/-- The describe command built by `get_vm_status` (lines 132-134). -/
def describeStatusCmd (project vm_name zone : String) : List String :=
  ["gcloud", "compute", "instances", "describe", vm_name,
   "--project", project, "--zone", zone, "--format", "json(status)"]

/-- The `try` block of `get_vm_status` (lines 141-145):
`json.loads(stdout)` then `data.get("status", "UNKNOWN")`, under a bare
`except:` that yields `"UNKNOWN"` (covering both a parse failure and
`data` not being a dict). -/
def statusOfStdout (stdout : String) : JValue :=
  match jsonParse stdout with
  | some (JValue.obj fields) =>
      (assocGet fields "status").getD (JValue.str "UNKNOWN")
  | _ => JValue.str "UNKNOWN"

/-- `get_vm_status`, lines 130-145: non-zero exit yields `"ERROR"`,
otherwise the parse above. -/
def get_vm_status (ex : Executor) (project vm_name zone : String) :
    Except PyExn JValue := do
  let (code, stdout, _stderr) ← run_command ex (describeStatusCmd project vm_name zone)
  if code ≠ 0 then
    pure (JValue.str "ERROR")
  else
    pure (statusOfStdout stdout)

/-- A hashable JSON value, usable as a Python dict key. -/
inductive JKey where
  | null
  | bool (b : Bool)
  | num (s : String)
  | str (s : String)
deriving DecidableEq

/-- `some` the dict key for a hashable value, `none` (a `TypeError`) for a
list or dict. -/
def toKey : JValue → Option JKey
  | JValue.null => some JKey.null
  | JValue.bool b => some (JKey.bool b)
  | JValue.num s => some (JKey.num s)
  | JValue.str s => some (JKey.str s)
  | JValue.arr _ => none
  | JValue.obj _ => none

abbrev PyDict := List (JKey × JValue)

/-- Python iteration over a JSON value: a list yields its elements, a dict
its keys, a string its one-character substrings; other values raise
`TypeError` (`none`). -/
def pyIterate : JValue → Option (List JValue)
  | JValue.arr xs => some xs
  | JValue.obj fields => some (fields.map (fun p => JValue.str p.1))
  | JValue.str s => some (s.data.map (fun ch => JValue.str (String.mk [ch])))
  | _ => none

/-- The `for instance in instances` loop of `get_all_vm_statuses`
(lines 163-171): each element must be a dict (`instance.get` otherwise
raises `AttributeError`) and its `"name"` must be hashable; the first
raising element aborts the loop, the `except Exception` handler keeps the
entries accumulated so far. -/
def statusLoop : List JValue → PyDict → PyDict
  | [], acc => acc
  | x :: rest, acc =>
      match x with
      | JValue.obj fields =>
          (match toKey ((assocGet fields "name").getD (JValue.str "")) with
          | some k =>
              statusLoop rest
                (assocSet acc k ((assocGet fields "status").getD (JValue.str "UNKNOWN")))
          | none => acc)
      | _ => acc

/-- The list command built by `get_all_vm_statuses` (lines 150-152). -/
def listStatusCmd (project : String) : List String :=
  ["gcloud", "compute", "instances", "list",
   "--project", project, "--format", "json(name,status,zone)"]

/-- The `try` block of `get_all_vm_statuses` (lines 161-175) starting
from the empty dict: a `json.loads` failure or a non-iterable value
yields `{}` via the `except Exception` handler; otherwise the loop above
fills the dict. -/
def vmStatusesOfStdout (stdout : String) : PyDict :=
  match jsonParse stdout with
  | none => []
  | some v =>
      match pyIterate v with
      | none => []
      | some items => statusLoop items []

/-- `get_all_vm_statuses`, lines 148-177: non-zero exit yields `{}`,
otherwise the parse above. -/
def get_all_vm_statuses (ex : Executor) (project : String) :
    Except PyExn PyDict := do
  let (code, stdout, _stderr) ← run_command ex (listStatusCmd project)
  if code ≠ 0 then
    pure []
  else
    pure (vmStatusesOfStdout stdout)

/-- `ssh_to_vm`, lines 511-518: a bare `subprocess.run(cmd)` with no
`try` block, so both exceptions and interrupts propagate. -/
def ssh_to_vm (ex : Executor) (project vm_name zone : String) :
    Except PyExn Unit :=
  match ex ["gcloud", "compute", "ssh", "--zone", zone, vm_name,
            "--tunnel-through-iap", "--project", project] with
  | .completed _ _ _ => .ok ()
  | .startupError m => .error (.exception m)
  | .interrupted => .error .keyboardInterrupt

/-- How `main` ends, lines 1467-1489. -/
inductive MainOutcome where
  | exitCode (code : Int)
  | menuReturn
deriving DecidableEq

/-- The top-level handler of `main`, lines 1468-1489: a normal end of the
loop is `sys.exit(0)` (menu choice 0); `except KeyboardInterrupt` prints a
farewell and calls `sys.exit(0)`; `except Exception` prints the error and
calls `sys.exit(1)`.  Nothing returns to a menu from here. -/
def mainHandler : Except PyExn Unit → MainOutcome
  | .ok _ => .exitCode 0
  | .error .keyboardInterrupt => .exitCode 0
  | .error (.exception _) => .exitCode 1

/-- The proxy call of `use_exec_method`, lines 1034-1037: the only
subprocess call in the module wrapped in its own
`except KeyboardInterrupt`, which swallows the interrupt and lets the
function return to its caller. -/
def proxyRun (r : SpawnResult) : Except PyExn Unit :=
  match r with
  | .completed _ _ _ => .ok ()
  | .interrupted => .ok ()
  | .startupError m => .error (.exception m)

/-- Port-range check of the validation rule (spec section 4.2): the input
must parse as an integer in `[1, 65535]`. -/
def validPort (s : String) : Bool :=
  match pyInt? s with
  | some v => if 1 ≤ v ∧ v ≤ 65535 then true else false
  | none => false

/-- Accept test of one menu prompt iteration, as in `display_main_menu`
lines 200-209 with bound `n`: `int(choice)` (a `ValueError` re-prompts),
accepted iff `0 <= choice <= n`. -/
def menuAccept (n : Nat) (s : String) : Option Int :=
  match pyInt? s with
  | some c => if 0 ≤ c ∧ c ≤ (n : Int) then some c else none
  | none => none

/-- The re-prompting selection loop shared by `display_main_menu`
(`n = 3`), `display_projects` (`n` = number of projects) and
`display_vms` (`n` = number of VMs): consume inputs until one is
accepted and return it; `none` only if the input stream runs out. -/
def menuPrompt (n : Nat) : List String → Option Int
  | [] => none
  | s :: rest =>
      match menuAccept n s with
      | some c => some c
      | none => menuPrompt n rest

/-- The connection-method selection of `ssh_to_cloud_run`, lines 905-921:
a single `input` is read and parsed; `1`, `2` or `3` dispatches a
method, anything else prints an error and falls through — there is no
loop, and no `0` choice is offered. -/
def connectionChoice : List String → Option Int
  | [] => none
  | s :: _ =>
      match pyInt? s with
      | some c => if 1 ≤ c ∧ c ≤ 3 then some c else none
      | none => none

/-- Modelled from the spec: `configure_port_forwarding` is imported by the
unit tests (test_gcp_vm_manager.py line 14) but is missing from
gcp_vm_manager.py.  Spec section 4.2: each port prompt re-prompts until an
input passes `validPort`; this consumes inputs until the first valid one. -/
def collectPort : List String → Option (String × List String)
  | [] => none
  | s :: rest => if validPort s then some (s, rest) else collectPort rest

/-- Modelled from the spec: the tunnel argument vector of the missing
`configure_port_forwarding` (spec sections 4.2 and 6, and
test_gcp_vm_manager.py lines 41-47). -/
def tunnelCmd (project vm_name zone remote_port local_port : String) :
    List String :=
  ["gcloud", "compute", "start-iap-tunnel", vm_name, remote_port,
   "--local-host-port", "localhost:" ++ local_port,
   "--project", project, "--zone", zone]

/-- One call into the Command Runner: the argument vector and whether
output is captured. -/
structure Invocation where
  cmd : List String
  capture : Bool
deriving DecidableEq

/-- What the blocking tunnel process does once launched. -/
inductive TunnelOutcome where
  | exited (code : Int)
  | raised (msg : String)
  | interrupted
deriving DecidableEq

/-- How the configurator reports the end of the tunnel. -/
inductive TunnelReport where
  | completed (code : Int)
  | failed (msg : String)
  | terminatedByUser
deriving DecidableEq

/-- The raw result of the blocking tunnel call, before any handler. -/
def runTunnel : TunnelOutcome → Except PyExn Int
  | .exited c => .ok c
  | .raised m => .error (.exception m)
  | .interrupted => .error .keyboardInterrupt

/-- Modelled from the spec: the failure semantics of the missing
`configure_port_forwarding` (spec section 4.2 and
test_gcp_vm_manager.py lines 96-140): a launch exception is caught and
reported as a failure, an interrupt is caught and reported as a clean
termination. -/
def handleTunnel : Except PyExn Int → TunnelReport
  | .ok c => .completed c
  | .error (.exception m) => .failed m
  | .error .keyboardInterrupt => .terminatedByUser

/-- Result of one run of the configurator: the Command Runner calls it
made and, when a tunnel was launched, how it ended. -/
structure PFRun where
  invocations : List Invocation
  report : Option TunnelReport
deriving DecidableEq

/-- Modelled from the spec: `configure_port_forwarding(project, vm_name,
zone)`, absent from gcp_vm_manager.py.  Spec section 4.2: collect the
remote port, then the local port, under the identical rule; on two valid
ports call the Command Runner exactly once with the tunnel vector and
output not captured; catch both a launch exception and an interrupt.
The result is `Except`-valued to state non-propagation; inputs running
out (never the case in the scenarios) launches nothing. -/
def configure_port_forwarding (project vm_name zone : String)
    (inputs : List String) (outcome : TunnelOutcome) : Except PyExn PFRun :=
  match collectPort inputs with
  | none => .ok ⟨[], none⟩
  | some (remote_port, rest) =>
      match collectPort rest with
      | none => .ok ⟨[], none⟩
      | some (local_port, _) =>
          .ok ⟨[⟨tunnelCmd project vm_name zone remote_port local_port, false⟩],
               some (handleTunnel (runTunnel outcome))⟩

/-- A remembered VM descriptor, the shape written by `display_vms`
lines 337-342. -/
structure VMDesc where
  name : String
  zone : String
  region : String
  description : String
deriving DecidableEq

/-- A project's configuration record: its `"vms"` list. -/
structure ProjCfg where
  vms : List VMDesc
deriving DecidableEq

/-- The `"projects"` mapping of config.json, in dict insertion order. -/
abbrev Config := List (String × ProjCfg)

/-- The default configuration created by `load_config` (lines 84-91). -/
def defaultConfig : Config := []

/-- Adding a project, `manage_projects` lines 1381-1390: an empty name is
ignored, an existing name is rejected, otherwise the key is bound to
`{"vms": []}`. -/
def add_project (c : Config) (name : String) : Config :=
  if name = "" then c
  else if (assocGet c name).isSome then c
  else assocSet c name ⟨[]⟩

/-- Removing a project, `manage_projects` lines 1391-1413: `del` on the
key. -/
def remove_project (c : Config) (name : String) : Config :=
  c.filter (fun p => p.1 ≠ name)

/-- A live instance as consumed by the reconciliation loop of
`display_vms` (lines 291-297): the fields it reads, each optional as
under `instance.get`. -/
structure Instance where
  name : Option String
  zone : Option String
  machineType : Option String
  status : Option String

/-- `zone_path.split('/')[-1]` on a non-empty path, else `"Unknown"`
(line 294). -/
def instZone (i : Instance) : String :=
  let zone_path := i.zone.getD ""
  if zone_path ≠ "" then ((zone_path.splitOn "/").getLastD "") else "Unknown"

/-- `zone[:-2] if zone and len(zone) > 2 else "Unknown"` (line 295). -/
def instRegion (i : Instance) : String :=
  let zone := instZone i
  if zone ≠ "" ∧ zone.length > 2 then zone.dropRight 2 else "Unknown"

/-- The friendly region names of lines 300-310. -/
def regionDisplay (region : String) : String :=
  if region.startsWith "us-central" then "US Central"
  else if region.startsWith "us-west" then "US West"
  else if region.startsWith "us-east" then "US East"
  else if region.startsWith "europe" then "Europe"
  else if region.startsWith "asia" then "Asia"
  else region

/-- `instance.get("machineType", "").split('/')[-1]` when the field is
truthy, else `"Unknown"` (line 296). -/
def instMachineType (i : Instance) : String :=
  match i.machineType with
  | some mt => if mt ≠ "" then (mt.splitOn "/").getLastD "" else "Unknown"
  | none => "Unknown"

/-- The configured descriptor matching a (name, zone) pair, lines 314-317
and 331-334. -/
def findVM (cvms : List VMDesc) (n z : String) : Option VMDesc :=
  cvms.find? (fun vm => vm.name = n && vm.zone = z)

/-- One iteration of the reconciliation loop of `display_vms`
(lines 291-342) restricted to its effect on `configured_vms`: a
descriptor with the instance's (name, zone) pair is appended when none is
present; an existing descriptor is left untouched (only its description
is read, for display). -/
def reconcileStep (cvms : List VMDesc) (inst : Instance) : List VMDesc :=
  match findVM cvms (inst.name.getD "") (instZone inst) with
  | some _ => cvms
  | none =>
      cvms ++ [⟨inst.name.getD "", instZone inst, regionDisplay (instRegion inst),
               instMachineType inst ++ " instance"⟩]

def reconcileVms (cvms : List VMDesc) (instances : List Instance) :
    List VMDesc :=
  instances.foldl reconcileStep cvms

/-- The effect of `display_vms` (lines 286-352) on the in-memory
configuration: the selected project's `"vms"` list is reconciled against
the live listing and stored back under the project key (the key is
created when absent). -/
def display_vms_reconcile (c : Config) (project : String)
    (instances : List Instance) : Config :=
  let pc := (assocGet c project).getD ⟨[]⟩
  assocSet c project ⟨reconcileVms pc.vms instances⟩

/-- A VM list with pairwise-distinct (name, zone) keys. -/
def VmsOk (vms : List VMDesc) : Prop :=
  (vms.map (fun vm => (vm.name, vm.zone))).Nodup

/-- The data-model invariant of spec section 3: unique project keys, and
per project pairwise-distinct (name, zone) pairs. -/
def ConfigInv (c : Config) : Prop :=
  (c.map Prod.fst).Nodup ∧ ∀ p ∈ c, VmsOk p.2.vms

/-- The configuration states reachable through the program's own
operations. -/
inductive ReachableConfig : Config → Prop
  | base : ReachableConfig defaultConfig
  | add (c : Config) (name : String) :
      ReachableConfig c → ReachableConfig (add_project c name)
  | remove (c : Config) (name : String) :
      ReachableConfig c → ReachableConfig (remove_project c name)
  | reconcile (c : Config) (project : String) (instances : List Instance) :
      ReachableConfig c →
      ReachableConfig (display_vms_reconcile c project instances)

/-- The dict key a loop iteration would use for an element: `some` for a
dict element with a hashable `"name"`, `none` otherwise. -/
def recNameKey : JValue → Option JKey
  | JValue.obj fields => toKey ((assocGet fields "name").getD (JValue.str ""))
  | _ => none

/-- The status a loop iteration stores for a dict element. -/
def recStatus : JValue → JValue
  | JValue.obj fields => (assocGet fields "status").getD (JValue.str "UNKNOWN")
  | _ => JValue.str "UNKNOWN"

/-- An element the loop processes without raising. -/
def recOk (x : JValue) : Bool :=
  (recNameKey x).isSome

theorem assocGet_assocSet_self {α β : Type} [DecidableEq α]
    (l : List (α × β)) (k : α) (v : β) :
    assocGet (assocSet l k v) k = some v := by
  induction l with
  | nil => simp [assocSet, assocGet]
  | cons p rest ih =>
      obtain ⟨k', v'⟩ := p
      by_cases hk : k' = k
      · simp [assocSet, hk, assocGet]
      · simpa [assocSet, hk, assocGet] using ih

theorem assocGet_cons {α β : Type} [DecidableEq α]
    (a : α) (b : β) (l : List (α × β)) (q : α) :
    assocGet ((a, b) :: l) q = if a = q then some b else assocGet l q := by
  by_cases h : a = q
  · simp [assocGet, List.find?, h]
  · simp [assocGet, List.find?, h]

theorem assocGet_assocSet_other {α β : Type} [DecidableEq α]
    (l : List (α × β)) (k q : α) (v : β) (hq : q ≠ k) :
    assocGet (assocSet l k v) q = assocGet l q := by
  induction l with
  | nil => simp [assocSet, assocGet_cons, Ne.symm hq, assocGet]
  | cons p rest ih =>
      obtain ⟨k', v'⟩ := p
      by_cases hk : k' = k
      · subst hk
        simp [assocSet, assocGet_cons, Ne.symm hq]
      · simp [assocSet, hk, assocGet_cons, ih]

theorem mem_keys_assocSet {α β : Type} [DecidableEq α]
    (l : List (α × β)) (k a : α) (v : β) :
    a ∈ (assocSet l k v).map Prod.fst ↔ a ∈ l.map Prod.fst ∨ a = k := by
  induction l with
  | nil => simp [assocSet]
  | cons p rest ih =>
      obtain ⟨k', v'⟩ := p
      by_cases hk : k' = k
      · subst hk
        simp [assocSet]
        tauto
      · simp [assocSet, hk, ih]
        tauto

theorem nodup_keys_assocSet {α β : Type} [DecidableEq α]
    (l : List (α × β)) (k : α) (v : β)
    (h : (l.map Prod.fst).Nodup) : ((assocSet l k v).map Prod.fst).Nodup := by
  induction l with
  | nil => simp [assocSet]
  | cons p rest ih =>
      obtain ⟨k', v'⟩ := p
      simp only [List.map_cons, List.nodup_cons] at h
      by_cases hk : k' = k
      · subst hk
        simpa [assocSet] using h
      · rw [show assocSet ((k', v') :: rest) k v = (k', v') :: assocSet rest k v
              from by simp [assocSet, hk]]
        simp only [List.map_cons, List.nodup_cons]
        refine ⟨?_, ih h.2⟩
        rw [mem_keys_assocSet]
        rintro (hmem | rfl)
        · exact h.1 hmem
        · exact hk rfl

theorem mem_assocSet {α β : Type} [DecidableEq α]
    (l : List (α × β)) (k : α) (v : β) (p : α × β)
    (hp : p ∈ assocSet l k v) : p ∈ l ∨ p = (k, v) := by
  induction l with
  | nil => simpa [assocSet] using hp
  | cons q rest ih =>
      obtain ⟨k', v'⟩ := q
      by_cases hk : k' = k
      · subst hk
        rcases (by simpa [assocSet] using hp : p = (k', v) ∨ p ∈ rest) with h | h
        · right; exact h
        · left; exact List.mem_cons_of_mem _ h
      · rcases (by simpa [assocSet, hk] using hp : p = (k', v') ∨ p ∈ assocSet rest k v) with h | h
        · left; simp [h]
        · rcases ih h with h' | h'
          · left; exact List.mem_cons_of_mem _ h'
          · right; exact h'

theorem assocGet_mem {α β : Type} [DecidableEq α]
    (l : List (α × β)) (k : α) (v : β)
    (h : assocGet l k = some v) : (k, v) ∈ l := by
  induction l with
  | nil => simp [assocGet] at h
  | cons p rest ih =>
      obtain ⟨k', v'⟩ := p
      by_cases hk : k' = k
      · subst hk
        have : v' = v := by simpa [assocGet] using h
        simp [this]
      · have : assocGet rest k = some v := by simpa [assocGet, hk] using h
        exact List.mem_cons_of_mem _ (ih this)

theorem reconcileStep_append (cvms : List VMDesc) (inst : Instance) :
    ∃ tail, reconcileStep cvms inst = cvms ++ tail := by
  cases hf : findVM cvms (inst.name.getD "") (instZone inst) with
  | none =>
      exact ⟨[⟨inst.name.getD "", instZone inst, regionDisplay (instRegion inst),
               instMachineType inst ++ " instance"⟩], by simp [reconcileStep, hf]⟩
  | some vm => exact ⟨[], by simp [reconcileStep, hf]⟩

theorem reconcileVms_append (instances : List Instance) (cvms : List VMDesc) :
    ∃ tail, reconcileVms cvms instances = cvms ++ tail := by
  induction instances generalizing cvms with
  | nil => exact ⟨[], by simp [reconcileVms]⟩
  | cons inst rest ih =>
      obtain ⟨t1, h1⟩ := reconcileStep_append cvms inst
      obtain ⟨t2, h2⟩ := ih (reconcileStep cvms inst)
      refine ⟨t1 ++ t2, ?_⟩
      simp [reconcileVms] at h2 ⊢
      rw [h2, h1, List.append_assoc]

theorem findVM_none_not_mem (cvms : List VMDesc) (n z : String)
    (h : findVM cvms n z = none) (vm : VMDesc) (hvm : vm ∈ cvms) :
    ¬(vm.name = n ∧ vm.zone = z) := by
  rintro ⟨h1, h2⟩
  have := List.find?_eq_none.1 h vm hvm
  simp [h1, h2] at this

theorem VmsOk_reconcileStep (cvms : List VMDesc) (inst : Instance)
    (h : VmsOk cvms) : VmsOk (reconcileStep cvms inst) := by
  cases hf : findVM cvms (inst.name.getD "") (instZone inst) with
  | some vm => simpa [reconcileStep, hf] using h
  | none =>
      rw [show reconcileStep cvms inst
            = cvms ++ [⟨inst.name.getD "", instZone inst,
                        regionDisplay (instRegion inst),
                        instMachineType inst ++ " instance"⟩]
          from by simp [reconcileStep, hf]]
      unfold VmsOk at h ⊢
      rw [List.map_append, List.nodup_append]
      refine ⟨h, List.nodup_singleton _, ?_⟩
      intro p hp hq
      simp only [List.map_cons, List.map_nil, List.mem_singleton] at hq
      subst hq
      obtain ⟨vm, hvm, hkey⟩ := List.mem_map.1 hp
      exact findVM_none_not_mem cvms _ _ hf vm hvm
        ⟨congrArg Prod.fst hkey, congrArg Prod.snd hkey⟩

theorem VmsOk_reconcileVms (instances : List Instance) (cvms : List VMDesc)
    (h : VmsOk cvms) : VmsOk (reconcileVms cvms instances) := by
  induction instances generalizing cvms with
  | nil => exact h
  | cons inst rest ih =>
      exact ih (reconcileStep cvms inst) (VmsOk_reconcileStep cvms inst h)

/-- C8: in every configuration state reachable through the program's
operations (the default config, project add/remove in `manage_projects`,
and the listing-driven reconciliation in `display_vms`), project
identifiers are unique keys of the projects mapping, and no project's vms
list holds two descriptors with the same (name, zone) pair. -/
theorem reachable_config_invariant (c : Config) (h : ReachableConfig c) :
    ConfigInv c := by
  induction h with
  | base => exact ⟨List.nodup_nil, by intro p hp; cases hp⟩
  | add c name _ ih =>
      obtain ⟨hkeys, hvals⟩ := ih
      unfold add_project
      by_cases h0 : name = ""
      · simpa [h0] using ⟨hkeys, hvals⟩
      · by_cases h1 : (assocGet c name).isSome
        · simpa [h0, h1] using ⟨hkeys, hvals⟩
        · simp only [h0, h1, if_false]
          refine ⟨nodup_keys_assocSet c name ⟨[]⟩ hkeys, ?_⟩
          intro p hp
          rcases mem_assocSet c name ⟨[]⟩ p hp with hmem | rfl
          · exact hvals p hmem
          · exact List.nodup_nil
  | remove c name _ ih =>
      obtain ⟨hkeys, hvals⟩ := ih
      refine ⟨?_, ?_⟩
      · exact List.Nodup.sublist
          (List.Sublist.map Prod.fst (List.filter_sublist c)) hkeys
      · intro p hp
        exact hvals p (List.mem_of_mem_filter hp)
  | reconcile c project instances _ ih =>
      obtain ⟨hkeys, hvals⟩ := ih
      unfold display_vms_reconcile
      refine ⟨nodup_keys_assocSet _ _ _ hkeys, ?_⟩
      intro p hp
      rcases mem_assocSet _ _ _ p hp with hmem | rfl
      · exact hvals p hmem
      · refine VmsOk_reconcileVms instances _ ?_
        cases hg : assocGet c project with
        | none => exact List.nodup_nil
        | some pc => exact hvals (project, pc) (assocGet_mem c project pc hg)

/-- Witness for C8 at a concrete reachable state. -/
theorem reachable_config_invariant_witness :
    ConfigInv (display_vms_reconcile (add_project defaultConfig "proj-a") "proj-a"
      [⟨some "vm1", some "zones/us-central1-a", some "machineTypes/n1-standard-1",
        some "RUNNING"⟩]) :=
  reachable_config_invariant _
    (ReachableConfig.reconcile _ _ _ (ReachableConfig.add _ _ ReachableConfig.base))

/-- C9: the reconciliation `display_vms` performs against the live listing
only adds descriptors: the selected project's previous descriptors stay,
unchanged and in place, as a front segment of the new list (stale entries
are never deleted), and every other project's entry is untouched. -/
theorem display_vms_frame (c : Config) (project : String)
    (instances : List Instance) :
    (∃ tail, ((assocGet (display_vms_reconcile c project instances) project).getD
        ⟨[]⟩).vms = ((assocGet c project).getD ⟨[]⟩).vms ++ tail)
    ∧ ∀ q, q ≠ project →
        assocGet (display_vms_reconcile c project instances) q = assocGet c q := by
  constructor
  · obtain ⟨tail, htail⟩ :=
      reconcileVms_append instances ((assocGet c project).getD ⟨[]⟩).vms
    refine ⟨tail, ?_⟩
    unfold display_vms_reconcile
    rw [assocGet_assocSet_self]
    simpa using htail
  · intro q hq
    unfold display_vms_reconcile
    exact assocGet_assocSet_other c project q _ hq

/-- Witness for C9 at a concrete configuration and listing. -/
theorem display_vms_frame_witness :
    assocGet (display_vms_reconcile
        [("proj-a", ⟨[⟨"vm0", "us-east1-b", "US East", "old desc"⟩]⟩),
         ("proj-b", ⟨[]⟩)] "proj-a"
        [⟨some "vm1", some "zones/us-central1-a", some "machineTypes/n1-standard-1",
          some "RUNNING"⟩]) "proj-b"
      = assocGet
        [("proj-a", ⟨[⟨"vm0", "us-east1-b", "US East", "old desc"⟩]⟩),
         ("proj-b", ⟨[]⟩)] "proj-b" :=
  (display_vms_frame _ "proj-a" _).2 "proj-b" (by decide)

theorem collectPort_none (inputs : List String)
    (h : ∀ s ∈ inputs, validPort s = false) : collectPort inputs = none := by
  induction inputs with
  | nil => rfl
  | cons s rest ih =>
      have hs := h s (List.mem_cons_self s rest)
      simp only [collectPort, hs, Bool.false_eq_true, if_false]
      exact ih (fun x hx => h x (List.mem_cons_of_mem _ hx))

theorem collectPort_skips (bads rest : List String)
    (h : ∀ s ∈ bads, validPort s = false) :
    collectPort (bads ++ rest) = collectPort rest := by
  induction bads with
  | nil => rfl
  | cons s bads' ih =>
      have hs := h s (List.mem_cons_self s bads')
      simp only [List.cons_append, collectPort, hs, Bool.false_eq_true, if_false]
      exact ih (fun x hx => h x (List.mem_cons_of_mem _ hx))

theorem collectPort_valid (r : String) (rest : List String)
    (h : validPort r = true) : collectPort (r :: rest) = some (r, rest) := by
  simp [collectPort, h]

/-- C1: every port input that does not parse as an integer in
`[1, 65535]` is consumed without any Command Runner call (in particular a
stream of only invalid inputs never calls it), the remote port being
collected first and the local port second under the identical rule; a
first valid input after any invalid ones for each port yields exactly one
call, carrying those two inputs. -/
theorem port_validation_gates_runner (project vm_name zone : String)
    (outcome : TunnelOutcome) :
    (∀ inputs : List String, (∀ s ∈ inputs, validPort s = false) →
      configure_port_forwarding project vm_name zone inputs outcome
        = .ok ⟨[], none⟩)
    ∧ ∀ (badsR : List String) (r : String) (badsL : List String) (l : String)
        (extra : List String),
      (∀ s ∈ badsR, validPort s = false) → validPort r = true →
      (∀ s ∈ badsL, validPort s = false) → validPort l = true →
      ∃ rep, configure_port_forwarding project vm_name zone
          (badsR ++ r :: (badsL ++ l :: extra)) outcome
        = .ok ⟨[⟨tunnelCmd project vm_name zone r l, false⟩], some rep⟩ := by
  constructor
  · intro inputs h
    unfold configure_port_forwarding
    rw [collectPort_none inputs h]
  · intro badsR r badsL l extra hR hr hL hl
    refine ⟨handleTunnel (runTunnel outcome), ?_⟩
    simp only [configure_port_forwarding, collectPort_skips badsR _ hR,
      collectPort_valid r _ hr, collectPort_skips badsL _ hL,
      collectPort_valid l _ hl]

/-- Witness for C1: the spec scenario, remote-port inputs
`["abc", "0", "-1", "70000", "8080"]` then local port `"8080"` (and the
final Enter), one Command Runner call with remote and local `"8080"`. -/
theorem port_validation_gates_runner_witness :
    ∃ rep, configure_port_forwarding "test-project" "test-vm" "us-central1-a"
        ["abc", "0", "-1", "70000", "8080", "8080", ""] (TunnelOutcome.exited 0)
      = .ok ⟨[⟨tunnelCmd "test-project" "test-vm" "us-central1-a" "8080" "8080",
              false⟩], some rep⟩ :=
  (port_validation_gates_runner "test-project" "test-vm" "us-central1-a"
      (TunnelOutcome.exited 0)).2
    ["abc", "0", "-1", "70000"] "8080" [] "8080" [""]
    (by decide) (by decide) (by decide) (by decide)

/-- C2: for valid remote port R and local port L the configurator calls
the Command Runner exactly once, with exactly the tunnel argument vector
and with output not captured. -/
theorem tunnel_command_exact (project vm_name zone remote_port local_port : String)
    (extra : List String) (outcome : TunnelOutcome)
    (hr : validPort remote_port = true) (hl : validPort local_port = true) :
    ∃ rep, configure_port_forwarding project vm_name zone
        (remote_port :: local_port :: extra) outcome
      = .ok ⟨[⟨["gcloud", "compute", "start-iap-tunnel", vm_name, remote_port,
                "--local-host-port", "localhost:" ++ local_port,
                "--project", project, "--zone", zone], false⟩], some rep⟩ := by
  refine ⟨handleTunnel (runTunnel outcome), ?_⟩
  simp only [configure_port_forwarding, collectPort_valid _ _ hr,
    collectPort_valid _ _ hl]
  rfl

/-- Witness for C2 at the test scenario inputs. -/
theorem tunnel_command_exact_witness :
    ∃ rep, configure_port_forwarding "test-project" "test-vm" "us-central1-a"
        ["8080", "8080", ""] (TunnelOutcome.exited 0)
      = .ok ⟨[⟨["gcloud", "compute", "start-iap-tunnel", "test-vm", "8080",
                "--local-host-port", "localhost:8080",
                "--project", "test-project", "--zone", "us-central1-a"],
              false⟩], some rep⟩ :=
  tunnel_command_exact "test-project" "test-vm" "us-central1-a" "8080" "8080"
    [""] (TunnelOutcome.exited 0) (by decide) (by decide)

/-- C3: whatever the tunnel call does — raise an exception or be
interrupted — the configurator returns normally (`.ok`), reporting an
exception as a failure and an interrupt as a clean termination, never as
an error. -/
theorem tunnel_failures_contained (project vm_name zone : String)
    (remote_port local_port : String) (extra : List String)
    (outcome : TunnelOutcome)
    (hr : validPort remote_port = true) (hl : validPort local_port = true) :
    ∃ run : PFRun,
      configure_port_forwarding project vm_name zone
          (remote_port :: local_port :: extra) outcome = .ok run
      ∧ (∀ m, outcome = TunnelOutcome.raised m →
          run.report = some (TunnelReport.failed m))
      ∧ (outcome = TunnelOutcome.interrupted →
          run.report = some TunnelReport.terminatedByUser
          ∧ ∀ m, run.report ≠ some (TunnelReport.failed m)) := by
  refine ⟨⟨[⟨tunnelCmd project vm_name zone remote_port local_port, false⟩],
           some (handleTunnel (runTunnel outcome))⟩, ?_, ?_, ?_⟩
  · simp only [configure_port_forwarding, collectPort_valid _ _ hr,
      collectPort_valid _ _ hl]
  · rintro m rfl
    rfl
  · rintro rfl
    exact ⟨rfl, fun m h => by cases h⟩

/-- Witness for C3: an interrupt during the tunnel is absorbed and
reported as a clean termination. -/
theorem tunnel_failures_contained_witness :
    ∃ run : PFRun,
      configure_port_forwarding "test-project" "test-vm" "us-central1-a"
          ["8080", "8080", ""] TunnelOutcome.interrupted = .ok run
      ∧ (∀ m, TunnelOutcome.interrupted = TunnelOutcome.raised m →
          run.report = some (TunnelReport.failed m))
      ∧ (TunnelOutcome.interrupted = TunnelOutcome.interrupted →
          run.report = some TunnelReport.terminatedByUser
          ∧ ∀ m, run.report ≠ some (TunnelReport.failed m)) :=
  tunnel_failures_contained "test-project" "test-vm" "us-central1-a"
    "8080" "8080" [""] TunnelOutcome.interrupted (by decide) (by decide)

/-- C4: `run_command` never raises on non-zero exit — a completed child
with exit code c, stdout s and stderr e yields the triple (c, s, e) — and
a startup exception with message m yields (1, "", m) instead of
propagating. -/
theorem run_command_contract (ex : Executor) (command : List String) :
    (∀ (c : Int) (o e : String), ex command = SpawnResult.completed c o e →
      run_command ex command = .ok (c, o, e))
    ∧ (∀ m, ex command = SpawnResult.startupError m →
      run_command ex command = .ok (1, "", m)) := by
  constructor
  · intro c o e h
    simp [run_command, h]
  · intro m h
    simp [run_command, h]

/-- Witness for C4: exit 0 with stdout "ok" gives (0, "ok", ""); a raised
"boom" gives (1, "", "boom"). -/
theorem run_command_contract_witness :
    run_command (fun _ => SpawnResult.completed 0 "ok" "") ["gcloud", "--version"]
      = .ok (0, "ok", "")
    ∧ run_command (fun _ => SpawnResult.startupError "boom") ["gcloud", "--version"]
      = .ok (1, "", "boom") :=
  ⟨(run_command_contract _ _).1 0 "ok" "" rfl,
   (run_command_contract _ _).2 "boom" rfl⟩

/-- C5: a describe command exiting non-zero makes `get_vm_status` return
"ERROR"; exiting zero with stdout that is not valid JSON makes it return
"UNKNOWN". -/
theorem get_vm_status_error_paths (ex : Executor) (project vm_name zone : String)
    (c : Int) (o e : String)
    (h : ex (describeStatusCmd project vm_name zone) = SpawnResult.completed c o e) :
    (c ≠ 0 → get_vm_status ex project vm_name zone = .ok (JValue.str "ERROR"))
    ∧ (c = 0 → jsonParse o = none →
        get_vm_status ex project vm_name zone = .ok (JValue.str "UNKNOWN")) := by
  constructor
  · intro hc
    simp [get_vm_status, run_command, h, hc, Bind.bind, Except.bind, pure, Except.pure]
  · intro hc hj
    subst hc
    simp [get_vm_status, run_command, h, statusOfStdout, hj,
      Bind.bind, Except.bind, pure, Except.pure]

/-- Witness for C5: exit 1 gives "ERROR", exit 0 with stdout "not json"
gives "UNKNOWN". -/
theorem get_vm_status_error_paths_witness :
    get_vm_status (fun _ => SpawnResult.completed 1 "" "error message")
        "test-project" "test-vm" "test-zone" = .ok (JValue.str "ERROR")
    ∧ get_vm_status (fun _ => SpawnResult.completed 0 "not json" "")
        "test-project" "test-vm" "test-zone" = .ok (JValue.str "UNKNOWN") :=
  ⟨(get_vm_status_error_paths _ "test-project" "test-vm" "test-zone"
      1 "" "error message" rfl).1 (by decide),
   (get_vm_status_error_paths _ "test-project" "test-vm" "test-zone"
      0 "not json" "" rfl).2 rfl (by rfl)⟩

/-- C6 counterexample: a KeyboardInterrupt during the blocking subprocess
call is not caught at the call site — `run_command` and `ssh_to_vm` let it
escape — and the top-level handler of `main` then terminates the process
with exit code 0 instead of returning to a menu. -/
theorem interrupt_not_caught_counterexample :
    run_command (fun _ => SpawnResult.interrupted) ["gcloud", "--version"]
      = .error PyExn.keyboardInterrupt
    ∧ ssh_to_vm (fun _ => SpawnResult.interrupted) "test-project" "test-vm"
        "us-central1-a" = .error PyExn.keyboardInterrupt
    ∧ mainHandler (.error PyExn.keyboardInterrupt) = MainOutcome.exitCode 0
    ∧ mainHandler (.error PyExn.keyboardInterrupt) ≠ MainOutcome.menuReturn := by
  refine ⟨rfl, rfl, rfl, ?_⟩
  intro h
  cases h

/-- C6 amended: an interrupt during a blocking subprocess call in
`run_command` or `ssh_to_vm` propagates (only `except Exception` or no
handler is present there); `main` catches it at top level and terminates
the process with exit code 0; only the Cloud Run proxy call of
`use_exec_method` catches it locally and returns to its caller. -/
theorem interrupt_reaches_top_level :
    (∀ (ex : Executor) (command : List String),
      ex command = SpawnResult.interrupted →
      run_command ex command = .error PyExn.keyboardInterrupt)
    ∧ (∀ (ex : Executor) (project vm_name zone : String),
      ex ["gcloud", "compute", "ssh", "--zone", zone, vm_name,
          "--tunnel-through-iap", "--project", project] = SpawnResult.interrupted →
      ssh_to_vm ex project vm_name zone = .error PyExn.keyboardInterrupt)
    ∧ mainHandler (.error PyExn.keyboardInterrupt) = MainOutcome.exitCode 0
    ∧ proxyRun SpawnResult.interrupted = .ok () := by
  refine ⟨?_, ?_, rfl, rfl⟩
  · intro ex command h
    simp [run_command, h]
  · intro ex project vm_name zone h
    simp [ssh_to_vm, h]

/-- Witness for the amended C6 at a concrete interrupted executor. -/
theorem interrupt_reaches_top_level_witness :
    run_command (fun _ => SpawnResult.interrupted)
        ["gcloud", "compute", "instances", "list"]
      = .error PyExn.keyboardInterrupt
    ∧ ssh_to_vm (fun _ => SpawnResult.interrupted) "test-project" "test-vm"
        "us-central1-a" = .error PyExn.keyboardInterrupt :=
  ⟨interrupt_reaches_top_level.1 _ ["gcloud", "compute", "instances", "list"] rfl,
   interrupt_reaches_top_level.2.1 _ "test-project" "test-vm" "us-central1-a" rfl⟩

/-- C7 counterexample: the connection-method selection of
`ssh_to_cloud_run` does not re-prompt on invalid input (it ignores every
later input) and rejects 0, unlike the re-prompting 0..N selection loops
of the other menus on the same input streams. -/
theorem connection_menu_counterexample :
    connectionChoice ["abc", "2"] = none
    ∧ menuPrompt 3 ["abc", "2"] = some 2
    ∧ connectionChoice ["0", "1"] = none
    ∧ menuPrompt 3 ["0", "1"] = some 0 := by
  refine ⟨by decide, by decide, by decide, by decide⟩

theorem menuAccept_bound (n : Nat) (s : String) (c : Int)
    (h : menuAccept n s = some c) : 0 ≤ c ∧ c ≤ (n : Int) := by
  cases hp : pyInt? s with
  | none => simp [menuAccept, hp] at h
  | some v =>
      simp only [menuAccept, hp] at h
      by_cases hb : 0 ≤ v ∧ v ≤ (n : Int)
      · rw [if_pos hb] at h; cases h; exact hb
      · rw [if_neg hb] at h; cases h

/-- C7 amended: the selection prompts of the main menu, project list and
VM list share the loop `menuPrompt n`: they only ever return a value in
{0, ..., n} and return the first accepted input, re-prompting past any
number of rejected ones; the connection-method selection instead reads a
single input, accepts only 1..3 (no 0 back option), and gives up without
re-prompting on anything else. -/
theorem menu_prompt_amended :
    (∀ (n : Nat) (inputs : List String) (c : Int),
      menuPrompt n inputs = some c → 0 ≤ c ∧ c ≤ (n : Int))
    ∧ (∀ (n : Nat) (bads : List String) (s : String) (rest : List String) (c : Int),
      (∀ b ∈ bads, menuAccept n b = none) → menuAccept n s = some c →
      menuPrompt n (bads ++ s :: rest) = some c)
    ∧ (∀ (s : String) (r1 r2 : List String),
      connectionChoice (s :: r1) = connectionChoice (s :: r2))
    ∧ (∀ (inputs : List String) (c : Int),
      connectionChoice inputs = some c → 1 ≤ c ∧ c ≤ 3) := by
  refine ⟨?_, ?_, ?_, ?_⟩
  · intro n inputs c h
    induction inputs with
    | nil => simp [menuPrompt] at h
    | cons s rest ih =>
        cases ha : menuAccept n s with
        | some c' =>
            have : some c' = some c := by simpa [menuPrompt, ha] using h
            cases this
            exact menuAccept_bound n s c ha
        | none =>
            exact ih (by simpa [menuPrompt, ha] using h)
  · intro n bads s rest c hb hs
    induction bads with
    | nil => simp [menuPrompt, hs]
    | cons b bads' ih =>
        have hbn := hb b (List.mem_cons_self b bads')
        simp only [List.cons_append, menuPrompt, hbn]
        exact ih (fun x hx => hb x (List.mem_cons_of_mem _ hx))
  · intro s r1 r2
    rfl
  · intro inputs c h
    cases inputs with
    | nil => simp [connectionChoice] at h
    | cons s rest =>
        cases hp : pyInt? s with
        | none => simp [connectionChoice, hp] at h
        | some v =>
            simp only [connectionChoice, hp] at h
            by_cases hbnd : 1 ≤ v ∧ v ≤ 3
            · rw [if_pos hbnd] at h; cases h; exact hbnd
            · rw [if_neg hbnd] at h; cases h

/-- Witness for the amended C7: the loop skips a rejected input and
returns the accepted "2"; the one-shot selection accepts "2" within
1..3. -/
theorem menu_prompt_amended_witness :
    menuPrompt 3 (["abc"] ++ "2" :: []) = some 2
    ∧ ((1 : Int) ≤ 2 ∧ (2 : Int) ≤ 3) :=
  ⟨menu_prompt_amended.2.1 3 ["abc"] "2" [] 2 (by decide) (by decide),
   menu_prompt_amended.2.2.2 ["2"] 2 (by decide)⟩

theorem statusLoop_cons_ok (x : JValue) (rest : List JValue) (acc : PyDict)
    (k : JKey) (hk : recNameKey x = some k) :
    statusLoop (x :: rest) acc = statusLoop rest (assocSet acc k (recStatus x)) := by
  cases x with
  | obj fields =>
      have ht : toKey ((assocGet fields "name").getD (JValue.str "")) = some k := by
        simpa [recNameKey] using hk
      simp [statusLoop, ht, recStatus]
  | null => simp [recNameKey] at hk
  | bool b => simp [recNameKey] at hk
  | num l => simp [recNameKey] at hk
  | str s => simp [recNameKey] at hk
  | arr l => simp [recNameKey] at hk

theorem statusLoop_get_unset (xs : List JValue) :
    ∀ acc : PyDict, ∀ k : JKey, (∀ x ∈ xs, recNameKey x ≠ some k) →
      assocGet (statusLoop xs acc) k = assocGet acc k := by
  induction xs with
  | nil => intro acc k _; rfl
  | cons x rest ih =>
      intro acc k h
      cases hr : recNameKey x with
      | some k' =>
          rw [statusLoop_cons_ok x rest acc k' hr]
          rw [ih _ k (fun y hy => h y (List.mem_cons_of_mem _ hy))]
          refine assocGet_assocSet_other acc k' k (recStatus x) ?_
          intro hq
          exact h x (List.mem_cons_self _ _) (hq ▸ hr)
      | none =>
          cases x with
          | obj fields =>
              have ht : toKey ((assocGet fields "name").getD (JValue.str "")) = none := by
                simpa [recNameKey] using hr
              simp [statusLoop, ht]
          | null => rfl
          | bool b => rfl
          | num l => rfl
          | str s => rfl
          | arr l => rfl

theorem statusLoop_get (xs : List JValue) :
    ∀ acc : PyDict, (∀ x ∈ xs, recOk x = true) → (xs.map recNameKey).Nodup →
      ∀ x ∈ xs, ∀ k, recNameKey x = some k →
        assocGet (statusLoop xs acc) k = some (recStatus x) := by
  induction xs with
  | nil => intro acc _ _ x hx; exact absurd hx (List.not_mem_nil x)
  | cons x0 rest ih =>
      intro acc hok hnd x hx k hk
      simp only [List.map_cons, List.nodup_cons] at hnd
      have hok0 := hok x0 (List.mem_cons_self _ _)
      have h0 : (recNameKey x0).isSome := by simpa [recOk] using hok0
      obtain ⟨k0, hk0⟩ := Option.isSome_iff_exists.1 h0
      rw [statusLoop_cons_ok x0 rest acc k0 hk0]
      rcases List.mem_cons.1 hx with rfl | hxr
      · have hkk : k0 = k := by rw [hk0] at hk; exact Option.some.inj hk
        subst hkk
        rw [statusLoop_get_unset rest _ k0 ?_]
        · exact assocGet_assocSet_self acc k0 (recStatus x)
        · intro y hy hyk
          refine hnd.1 ?_
          rw [hk0]
          rw [← hyk]
          exact List.mem_map_of_mem recNameKey hy
      · exact ih _ (fun y hy => hok y (List.mem_cons_of_mem _ hy)) hnd.2 x hxr k hk

theorem vmStatusesOfStdout_empty (o : String)
    (h : ∀ xs, jsonParse o ≠ some (JValue.arr xs)) :
    vmStatusesOfStdout o = [] := by
  unfold vmStatusesOfStdout
  cases hj : jsonParse o with
  | none => rfl
  | some v =>
      cases v with
      | arr xs => exact absurd hj (h xs)
      | obj fields =>
          cases fields with
          | nil => rfl
          | cons f fs => simp [pyIterate, statusLoop]
      | str s =>
          cases hs : s.data with
          | nil => simp [pyIterate, hs, statusLoop]
          | cons ch chs => simp [pyIterate, hs, statusLoop]
      | null => rfl
      | bool b => rfl
      | num l => rfl

/-- C10: `get_all_vm_statuses` never raises for any spawn other than an
interrupt; a non-zero exit, or a zero exit whose stdout is not a valid
JSON array, yields the empty dict; a valid array of records with
pairwise-distinct hashable names yields a dict mapping each record's name
to its status, `"UNKNOWN"` standing in for a missing status field. -/
theorem get_all_vm_statuses_contract (ex : Executor) (project : String) :
    (∀ r, ex (listStatusCmd project) = r → r ≠ SpawnResult.interrupted →
      ∃ d, get_all_vm_statuses ex project = .ok d)
    ∧ (∀ (c : Int) (o e : String),
        ex (listStatusCmd project) = SpawnResult.completed c o e → c ≠ 0 →
        get_all_vm_statuses ex project = .ok [])
    ∧ (∀ (o e : String),
        ex (listStatusCmd project) = SpawnResult.completed 0 o e →
        (∀ xs, jsonParse o ≠ some (JValue.arr xs)) →
        get_all_vm_statuses ex project = .ok [])
    ∧ (∀ (o e : String) (xs : List JValue),
        ex (listStatusCmd project) = SpawnResult.completed 0 o e →
        jsonParse o = some (JValue.arr xs) →
        (∀ x ∈ xs, recOk x = true) → (xs.map recNameKey).Nodup →
        ∀ x ∈ xs, ∀ k, recNameKey x = some k →
          ∃ d, get_all_vm_statuses ex project = .ok d
            ∧ assocGet d k = some (recStatus x)) := by
  refine ⟨?_, ?_, ?_, ?_⟩
  · intro r h hr
    cases r with
    | completed c o e =>
        by_cases hc : c = 0
        · exact ⟨vmStatusesOfStdout o, by
            simp [get_all_vm_statuses, run_command, h, hc,
              Bind.bind, Except.bind, pure, Except.pure]⟩
        · exact ⟨[], by
            simp [get_all_vm_statuses, run_command, h, hc,
              Bind.bind, Except.bind, pure, Except.pure]⟩
    | startupError m =>
        exact ⟨[], by
          simp [get_all_vm_statuses, run_command, h,
            Bind.bind, Except.bind, pure, Except.pure]⟩
    | interrupted => exact absurd rfl hr
  · intro c o e h hc
    simp [get_all_vm_statuses, run_command, h, hc,
      Bind.bind, Except.bind, pure, Except.pure]
  · intro o e h hj
    simp [get_all_vm_statuses, run_command, h, vmStatusesOfStdout_empty o hj,
      Bind.bind, Except.bind, pure, Except.pure]
  · intro o e xs h hj hok hnd x hx k hk
    refine ⟨statusLoop xs [], ?_, ?_⟩
    · simp [get_all_vm_statuses, run_command, h, vmStatusesOfStdout, hj, pyIterate,
        Bind.bind, Except.bind, pure, Except.pure]
    · exact statusLoop_get xs [] hok hnd x hx k hk

/-- Witness for C10: a failing listing and a non-JSON listing both give
the empty dict; the test listing of one running VM maps "vm1" to
"RUNNING". -/
theorem get_all_vm_statuses_contract_witness :
    get_all_vm_statuses (fun _ => SpawnResult.completed 1 "" "error message")
        "test-project" = .ok []
    ∧ get_all_vm_statuses (fun _ => SpawnResult.completed 0 "not json" "")
        "test-project" = .ok []
    ∧ ∃ d, get_all_vm_statuses
          (fun _ => SpawnResult.completed 0
            "[\x7b\"name\": \"vm1\", \"status\": \"RUNNING\"\x7d]" "")
          "test-project" = .ok d
        ∧ assocGet d (JKey.str "vm1") = some (JValue.str "RUNNING") :=
  ⟨(get_all_vm_statuses_contract _ "test-project").2.1 1 "" "error message"
      rfl (by decide),
   (get_all_vm_statuses_contract _ "test-project").2.2.1 "not json" "" rfl
      (fun xs hx => by
        rw [show jsonParse "not json" = none from rfl] at hx
        cases hx),
   (get_all_vm_statuses_contract _ "test-project").2.2.2
      "[\x7b\"name\": \"vm1\", \"status\": \"RUNNING\"\x7d]" ""
      [JValue.obj [("name", JValue.str "vm1"), ("status", JValue.str "RUNNING")]]
      rfl (by rfl) (by decide) (by decide)
      (JValue.obj [("name", JValue.str "vm1"), ("status", JValue.str "RUNNING")])
      (List.mem_cons_self _ _) (JKey.str "vm1") (by rfl)⟩
